import Mathlib

/-!
Verification of the MLB savant enricher service (src/main.py) against its
specification.  The Python source is shallowly embedded: the pure string
manipulation of the lineup-name extraction, the matchup-correlation loop of
analyze_game, the strategy-fallback structure of get_pitcher_arsenal and
get_batter_vs_pitches (with the external browser environment modelled as an
explicit page value and exceptions as an Except layer that the source
try/except catches), and the game-selection logic of the HTTP handlers.
-/

set_option autoImplicit false

namespace MLB

/-- A whitespace character, as Python str.split and the JS \s class treat it. -/
def isSpaceChar (c : Char) : Bool :=
  c = ' ' || c = '\t' || c = '\n' || c = '\r'

/-- Helper for splitWs: walks the characters, accumulating the current token
reversed; tokens are emitted at whitespace boundaries, empty tokens dropped. -/
def splitWsAux : List Char → List Char → List String
  | [], acc => if acc.isEmpty then [] else [String.mk acc.reverse]
  | c :: cs, acc =>
    if isSpaceChar c then
      if acc.isEmpty then splitWsAux cs []
      else String.mk acc.reverse :: splitWsAux cs []
    else splitWsAux cs (c :: acc)

/-- Python str.split with no argument: split on runs of whitespace,
discarding empty tokens.  Used by analyze_game on each raw lineup line. -/
def splitWs (s : String) : List String :=
  splitWsAux s.data []

/-- Python membership test of a character in a string, as in the source
conditions testing for a parenthesis inside a token. -/
def strContains (s : String) (c : Char) : Bool :=
  s.data.any (fun d => d = c)

/-- Python str.isdigit restricted to ASCII digits: non-empty and all digits. -/
def isDigitToken (s : String) : Bool :=
  !s.data.isEmpty && s.data.all (fun c => c.isDigit)

/-- Python sep.join with a single-space separator, as in the source
batter_name = a space joining name_parts. -/
def joinSpace : List String → String
  | [] => ""
  | [s] => s
  | s :: t :: rest => s ++ " " ++ joinSpace (t :: rest)

/-- The away-lineup loop body of analyze_game: iterate over the tokens after
the first one (the batting-order number is assumed to stand there) and stop at
the first token containing an opening parenthesis (the handedness marker). -/
def collectUntilParen : List String → List String
  | [] => []
  | p :: ps => if strContains p '(' then [] else p :: collectUntilParen ps

/-- Away-lineup name tokens: the source skips parts[0] unconditionally and
then collects tokens up to the first one containing an opening parenthesis. -/
def awayNameTokens : List String → List String
  | [] => []
  | _ :: rest => collectUntilParen rest

/-- Away-lineup name extraction of analyze_game, for lines such as
a batting order number, then the name, then handedness and position. -/
def extractAwayName (line : String) : String :=
  joinSpace (awayNameTokens (splitWs line))

/-- The home-lineup loop body of analyze_game: a token containing a closing
parenthesis sets the found_handedness flag and is itself dropped; afterwards
every token that is not a pure digit string is kept. -/
def homeCollect : List String → Bool → List String
  | [], _ => []
  | p :: ps, found =>
    if strContains p ')' then homeCollect ps true
    else if found && !isDigitToken p then p :: homeCollect ps found
    else homeCollect ps found

/-- Home-lineup name extraction of analyze_game, for lines such as
position, then handedness, then the name, then a trailing order number. -/
def extractHomeName (line : String) : String :=
  joinSpace (homeCollect (splitWs line) false)

/-- The position abbreviations the specification lists for lineup lines. -/
def positionAbbrevs : List String :=
  ["C", "P", "1B", "2B", "3B", "SS", "LF", "CF", "RF", "DH"]

/-- A token is a position abbreviation when it is one of the known ones. -/
def isPositionToken (s : String) : Bool :=
  positionAbbrevs.any (fun a => a == s)

/-- A token is a parenthesized handedness marker: left, right or switch. -/
def isHandednessToken (s : String) : Bool :=
  s == "(L)" || s == "(R)" || s == "(S)"

/-- A token that can be part of a player name: no parentheses, not a pure
digit string, and not a position abbreviation. -/
def isCleanNameToken (s : String) : Bool :=
  !strContains s '(' && !strContains s ')' && !isDigitToken s && !isPositionToken s

/-- A token list is in the observed away layout: batting-order number first,
then the name tokens, then a handedness marker, then a position. -/
def awayLayout (toks : List String) : Prop :=
  ∃ num name hand pos,
    toks = num :: name ++ [hand, pos] ∧
    isDigitToken num = true ∧
    name ≠ [] ∧
    (∀ t ∈ name, isCleanNameToken t = true) ∧
    isHandednessToken hand = true ∧
    isPositionToken pos = true

/-- A token list is in the observed home layout: position first, then a
handedness marker, then the name tokens, with the batting-order number either
trailing or leading. -/
def homeLayout (toks : List String) : Prop :=
  ∃ num pos hand name,
    (toks = pos :: hand :: name ++ [num] ∨ toks = num :: pos :: hand :: name) ∧
    isDigitToken num = true ∧
    name ≠ [] ∧
    (∀ t ∈ name, isCleanNameToken t = true) ∧
    isHandednessToken hand = true ∧
    isPositionToken pos = true

/-- The output property the specification demands of the normalizer: no
digit-only token, no position abbreviation, no parenthesis at all (hence no
parenthesized handedness marker). -/
def cleanOutput (l : List String) : Prop :=
  ∀ t ∈ l, isDigitToken t = false ∧ isPositionToken t = false ∧
    strContains t '(' = false ∧ strContains t ')' = false

/-- Drop leading and trailing whitespace characters, the JS String.trim. -/
def trimChars (l : List Char) : List Char :=
  ((l.dropWhile isSpaceChar).reverse.dropWhile isSpaceChar).reverse

/-- JS String.trim on a string value. -/
def strTrim (s : String) : String :=
  String.mk (trimChars s.data)

/-- Python str.lower, character by character (team codes and player names in
the source are ASCII). -/
def lowerStr (s : String) : String :=
  String.mk (s.data.map Char.toLower)

/-- Python str.upper, character by character, as the specific-game endpoint
applies to team codes. -/
def upperStr (s : String) : String :=
  String.mk (s.data.map Char.toUpper)

/-- Substring test on character lists, the Python in operator on strings. -/
def isSubstrOf (needle : List Char) : List Char → Bool
  | [] => needle.isEmpty
  | c :: cs => needle.isPrefixOf (c :: cs) || isSubstrOf needle cs

/-- One arsenal entry as the JS evaluate block of get_pitcher_arsenal builds
it: a trimmed pitch-type label and a usage percentage string. -/
structure ArsenalEntry where
  pitch_type : String
  usage : String
deriving DecidableEq

/-- One row of the batter dictionary built by get_batter_vs_pitches: the
plate appearances, batting average, slugging and woba cells. -/
structure BatterStat where
  pa : String
  ba : String
  slg : String
  woba : String
deriving DecidableEq

/-- One entry of a matchup performance list inside analyze_game. -/
structure PerfEntry where
  pitch_type : String
  pitcher_usage : String
  batter_stats : BatterStat
deriving DecidableEq

/-- The correlation loop of analyze_game: walk the arsenal in order and keep
an entry exactly when its pitch type is a key of the batter dictionary. -/
def buildPerformance : List ArsenalEntry → List (String × BatterStat) → List PerfEntry
  | [], _ => []
  | p :: ps, stats =>
    match stats.lookup p.pitch_type with
    | some st => ⟨p.pitch_type, p.usage, st⟩ :: buildPerformance ps stats
    | none => buildPerformance ps stats

/-- One matchup record of analyze_game. -/
structure Matchup where
  batter : String
  team : String
  vs_pitcher : String
  performance : List PerfEntry
deriving DecidableEq

/-- Build the matchup record for one batter against one arsenal. -/
def mkMatchup (bname team vsP : String) (ars : List ArsenalEntry)
    (st : List (String × BatterStat)) : Matchup :=
  ⟨bname, team, vsP, buildPerformance ars st⟩

/-- One lineup loop of analyze_game over already extracted batter names: a
matchup is appended to key_matchups only when its performance list is
non-empty.  The stats function stands for the external per-batter fetch. -/
def processBatters (names : List String) (team vsP : String)
    (ars : List ArsenalEntry) (stats : String → List (String × BatterStat)) :
    List Matchup :=
  match names with
  | [] => []
  | n :: rest =>
    let m := mkMatchup n team vsP ars (stats n)
    if m.performance.isEmpty then processBatters rest team vsP ars stats
    else m :: processBatters rest team vsP ars stats

/-- One game of the lineup feed, with the fields analyze_game reads. -/
structure Game where
  away_team : String
  home_team : String
  away_pitcher : String
  home_pitcher : String
  away_lineup : List String
  home_lineup : List String
deriving DecidableEq

/-- The key_matchups list analyze_game assembles: at most the first three
lines of each lineup are processed, away batters against the home arsenal and
home batters against the away arsenal, and only non-empty matchups kept. -/
def keyMatchups (g : Game) (stats : String → List (String × BatterStat))
    (awayArs homeArs : List ArsenalEntry) (awayP homeP : String) : List Matchup :=
  processBatters ((g.away_lineup.take 3).map extractAwayName) g.away_team homeP homeArs stats ++
    processBatters ((g.home_lineup.take 3).map extractHomeName) g.home_team awayP awayArs stats

/-- The hard-coded game search of the root endpoint: the first feed entry
whose away team is DET and whose home team is TB. -/
def findDetTb (feed : List Game) : Option Game :=
  feed.find? (fun g => g.away_team == "DET" && g.home_team == "TB")

/-- Game selection of the GET root handler: an empty feed is an error, a feed
without a DET at TB game is an error, otherwise that game is analyzed. -/
def rootEndpointGame (feed : List Game) : Except String Game :=
  if feed.isEmpty then Except.error "No games found"
  else
    match findDetTb feed with
    | none => Except.error "DET @ TB game not found"
    | some g => Except.ok g

/-- The team-code comparison of the specific-game endpoint: both sides are
uppercased before equality. -/
def gameCodeMatch (g : Game) (aw hm : String) : Bool :=
  upperStr g.away_team == upperStr aw && upperStr g.home_team == upperStr hm

/-- Game selection of the GET game handler: first feed entry whose uppercased
team codes equal the uppercased request codes. -/
def findGameCI (feed : List Game) (aw hm : String) : Option Game :=
  feed.find? (fun g => gameCodeMatch g aw hm)

/-- The specific-game handler: the found game is analyzed, an absent pair
yields the game-not-found error object. -/
def specificGameEndpoint (feed : List Game) (aw hm : String) : Except String Game :=
  match findGameCI feed aw hm with
  | none => Except.error "Game not found"
  | some g => Except.ok g

/-- A character the first group of the arsenal regex accepts: an ASCII letter
or a whitespace character. -/
def isNameChar (c : Char) : Bool :=
  ('A' ≤ c && c ≤ 'Z') || ('a' ≤ c && c ≤ 'z') || isSpaceChar c

/-- Longest prefix of digits and dots, with the remaining characters, for the
percentage group of the arsenal regex. -/
def takeDigitsDots : List Char → List Char × List Char
  | [] => ([], [])
  | c :: cs =>
    if c.isDigit || c = '.' then
      let r := takeDigitsDots cs
      (c :: r.1, r.2)
    else ([], c :: cs)

/-- Scanner for the matchAll loop of the JS evaluate block inside
get_pitcher_arsenal: a match is a non-empty run of letters and spaces, then an
opening parenthesis, digits and dots, a percent sign and a closing
parenthesis; the first group is trimmed and the percentage keeps its percent
sign.  The fuel argument bounds the recursion by the input length. -/
def parsePitchesAux : Nat → List Char → List Char → List ArsenalEntry
  | 0, _, _ => []
  | _ + 1, [], _ => []
  | fuel + 1, c :: cs, pending =>
    if c = '(' then
      let r := takeDigitsDots cs
      match r.2 with
      | '%' :: ')' :: rest =>
        if r.1.isEmpty || pending.isEmpty then parsePitchesAux fuel cs []
        else ⟨String.mk (trimChars pending.reverse), String.mk r.1 ++ "%"⟩ ::
          parsePitchesAux fuel rest []
      | _ => parsePitchesAux fuel cs []
    else if isNameChar c then parsePitchesAux fuel cs (c :: pending)
    else parsePitchesAux fuel cs []

/-- Arsenal extraction from the text of the element containing the relies-on
marker, as the JS evaluate block of get_pitcher_arsenal performs it. -/
def parsePitches (s : String) : List ArsenalEntry :=
  parsePitchesAux (s.data.length + 1) s.data []

/-- A page link as the link-scan fallback sees it: text_content may be null. -/
structure Link where
  text : Option String
deriving DecidableEq

/-- The link-scan predicate of the fetchers: the link text is non-null,
non-empty (Python truthiness) and contains the lowercased player name. -/
def linkMatches (n : String) (l : Link) : Bool :=
  match l.text with
  | none => false
  | some t => if t == "" then false else isSubstrOf (lowerStr n).data (lowerStr t).data

/-- The selector fallback chain both fetchers use to pick a search result:
the menu-item selector, then the savant-player href selector, then the
search-results selector, then a scan of all links for the player name. -/
def firstResult (menuItem savantHref searchResults : Option Link)
    (links : List Link) (n : String) : Option Link :=
  match menuItem with
  | some l => some l
  | none =>
    match savantHref with
    | some l => some l
    | none =>
      match searchResults with
      | some l => some l
      | none => links.find? (linkMatches n)

/-- The external environment one get_pitcher_arsenal call runs against: which
browser steps throw, whether the search box exists, what each result selector
yields, the links on the page, and the text of the element containing the
relies-on and pitches markers when one exists. -/
structure PitcherPage where
  gotoThrows : Bool
  searchBox : Bool
  menuItemLink : Option Link
  savantPlayerLink : Option Link
  searchResultsLink : Option Link
  allLinks : List Link
  clickThrows : Bool
  evalThrows : Bool
  reliesOnText : Option String
deriving DecidableEq

/-- The value the arsenal evaluate block returns on a pitcher page: empty
when no element carries the relies-on marker, otherwise the parsed pitches. -/
def arsenalEvalResult (pg : PitcherPage) : List ArsenalEntry :=
  match pg.reliesOnText with
  | none => []
  | some t => parsePitches t

/-- The body of the try block of get_pitcher_arsenal, paired with the number
of external site retrievals it performs: the single page.goto is the one
external retrieval and happens first on every call.  A missing search box or
a missing search result short-circuits to an empty arsenal; browser failures
surface as exceptions. -/
def pitcherFetchBodyCounted (pg : PitcherPage) (n : String) :
    Except String (List ArsenalEntry) × Nat :=
  if pg.gotoThrows then (Except.error "goto failed", 1)
  else if pg.searchBox then
    match firstResult pg.menuItemLink pg.savantPlayerLink pg.searchResultsLink pg.allLinks n with
    | none => (Except.ok [], 1)
    | some _ =>
      if pg.clickThrows then (Except.error "click failed", 1)
      else if pg.evalThrows then (Except.error "evaluate failed", 1)
      else (Except.ok (arsenalEvalResult pg), 1)
  else (Except.ok [], 1)

/-- Number of external site retrievals one get_pitcher_arsenal call makes. -/
def pitcherExternalCalls (pg : PitcherPage) (n : String) : Nat :=
  (pitcherFetchBodyCounted pg n).2

/-- get_pitcher_arsenal: the try body with its except clause, which catches
every exception and returns an empty arsenal. -/
def get_pitcher_arsenal (pg : PitcherPage) (n : String) : List ArsenalEntry :=
  match (pitcherFetchBodyCounted pg n).1 with
  | Except.ok r => r
  | Except.error _ => []

/-- One row of the run-values table, as a list of cell text contents. -/
structure TableRow where
  cells : List String
deriving DecidableEq

/-- Cell access of the JS evaluate block: the trimmed text of cell i. -/
def cellAt (cells : List String) (i : Nat) : String :=
  strTrim (cells.getD i "")

/-- JS object assignment on the pitch-data dictionary: an existing key is
overwritten in place, a new key is appended. -/
def dictInsert (d : List (String × BatterStat)) (k : String) (v : BatterStat) :
    List (String × BatterStat) :=
  if d.any (fun p => p.1 == k) then d.map (fun p => if p.1 == k then (k, v) else p)
  else d ++ [(k, v)]

/-- One iteration of the row loop of the run-values extraction: rows with
more than ten cells whose first cell is the 2025 season contribute their
pitch type and the pa, ba, slg and woba cells. -/
def extractRow (data : List (String × BatterStat)) (row : TableRow) :
    List (String × BatterStat) :=
  if 10 < row.cells.length then
    if cellAt row.cells 0 = "2025" then
      dictInsert data (cellAt row.cells 1)
        ⟨cellAt row.cells 7, cellAt row.cells 8, cellAt row.cells 9, cellAt row.cells 10⟩
    else data
  else data

/-- The row loop of the run-values extraction over all body rows. -/
def buildPitchData (rows : List TableRow) : List (String × BatterStat) :=
  rows.foldl extractRow []

/-- The external environment one get_batter_vs_pitches call runs against;
runValuesTable holds the body rows of the table preceded by the run-values
marker when such a table exists. -/
structure BatterPage where
  gotoThrows : Bool
  searchBox : Bool
  menuItemLink : Option Link
  savantPlayerLink : Option Link
  searchResultsLink : Option Link
  allLinks : List Link
  clickThrows : Bool
  evalThrows : Bool
  runValuesTable : Option (List TableRow)
deriving DecidableEq

/-- The value the pitch-data evaluate block returns on a batter page: the
empty dictionary when no table carries the run-values marker. -/
def pitchDataEvalResult (pg : BatterPage) : List (String × BatterStat) :=
  match pg.runValuesTable with
  | none => []
  | some rows => buildPitchData rows

/-- The body of the try block of get_batter_vs_pitches, paired with its
number of external site retrievals, mirroring the pitcher fetch. -/
def batterFetchBodyCounted (pg : BatterPage) (n : String) :
    Except String (List (String × BatterStat)) × Nat :=
  if pg.gotoThrows then (Except.error "goto failed", 1)
  else if pg.searchBox then
    match firstResult pg.menuItemLink pg.savantPlayerLink pg.searchResultsLink pg.allLinks n with
    | none => (Except.ok [], 1)
    | some _ =>
      if pg.clickThrows then (Except.error "click failed", 1)
      else if pg.evalThrows then (Except.error "evaluate failed", 1)
      else (Except.ok (pitchDataEvalResult pg), 1)
  else (Except.ok [], 1)

/-- Number of external site retrievals one get_batter_vs_pitches call makes. -/
def batterExternalCalls (pg : BatterPage) (n : String) : Nat :=
  (batterFetchBodyCounted pg n).2

/-- get_batter_vs_pitches: the try body with its except clause, which catches
every exception and returns an empty dictionary. -/
def get_batter_vs_pitches (pg : BatterPage) (n : String) : List (String × BatterStat) :=
  match (batterFetchBodyCounted pg n).1 with
  | Except.ok r => r
  | Except.error _ => []

/-- All pitcher-page strategies come up empty: an exception at some browser
step, a missing search box, no search result by any selector, or an arsenal
evaluation that finds nothing. -/
def pitcherAllMiss (pg : PitcherPage) (n : String) : Prop :=
  pg.gotoThrows = true ∨ pg.searchBox = false ∨
    firstResult pg.menuItemLink pg.savantPlayerLink pg.searchResultsLink pg.allLinks n = none ∨
    pg.clickThrows = true ∨ pg.evalThrows = true ∨ arsenalEvalResult pg = []

/-- All batter-page strategies come up empty. -/
def batterAllMiss (pg : BatterPage) (n : String) : Prop :=
  pg.gotoThrows = true ∨ pg.searchBox = false ∨
    firstResult pg.menuItemLink pg.savantPlayerLink pg.searchResultsLink pg.allLinks n = none ∨
    pg.clickThrows = true ∨ pg.evalThrows = true ∨ pitchDataEvalResult pg = []

/-- A game value used to instantiate the endpoint and matchup theorems. -/
def gEx : Game :=
  ⟨"SEA", "CHC", "Kirby (R)", "Imanaga (L)", ["1   J.P. Crawford (L) SS"],
    ["LF (S) Ian Happ   1"]⟩

/-- A stats collaborator answering every batter with one slider row. -/
def statsEx : String → List (String × BatterStat) :=
  fun _ => [("Slider", ⟨"12", ".250", ".400", ".320"⟩)]

/-- A one-pitch arsenal used to instantiate the matchup theorems. -/
def arsEx : List ArsenalEntry := [⟨"Slider", "30.2%"⟩]

/-- A feed game whose team pair is not DET at TB. -/
def gNB : Game := ⟨"NYY", "BOS", "Cole (R)", "Crochet (L)", [], []⟩

/-- A DET at TB feed game. -/
def gDT : Game := ⟨"DET", "TB", "Skubal (L)", "McClanahan (L)", [], []⟩

/-- A pitcher page on which every strategy misses: no search results, no
links, no relies-on element, no browser failure. -/
def ppEx : PitcherPage := ⟨false, false, none, none, none, [], false, false, none⟩

/-- A batter page on which every strategy misses. -/
def bpEx : BatterPage := ⟨false, false, none, none, none, [], false, false, none⟩

theorem collect_eq_takeWhile (l : List String) :
    collectUntilParen l = l.takeWhile (fun p => !strContains p '(') := by
  induction l with
  | nil => rfl
  | cons p ps ih =>
    by_cases h : strContains p '(' = true
    · simp [collectUntilParen, List.takeWhile_cons, h]
    · simp only [Bool.not_eq_true] at h
      simp [collectUntilParen, List.takeWhile_cons, h, ih]

theorem collect_append_name (name : List String) (hand : String) (rest : List String)
    (hname : ∀ t ∈ name, strContains t '(' = false)
    (hhand : strContains hand '(' = true) :
    collectUntilParen (name ++ hand :: rest) = name := by
  induction name with
  | nil => simp [collectUntilParen, hhand]
  | cons t ts ih =>
    have ht : strContains t '(' = false := hname t (List.mem_cons_self t ts)
    simp only [List.cons_append, collectUntilParen, ht]
    simp only [Bool.false_eq_true, if_false]
    exact congrArg (t :: ·) (ih (fun u hu => hname u (List.mem_cons_of_mem t hu)))

theorem homeCollect_clean_append (name : List String) (rest : List String)
    (hname : ∀ t ∈ name, strContains t ')' = false ∧ isDigitToken t = false) :
    homeCollect (name ++ rest) true = name ++ homeCollect rest true := by
  induction name with
  | nil => rfl
  | cons t ts ih =>
    obtain ⟨h1, h2⟩ := hname t (List.mem_cons_self t ts)
    simp only [List.cons_append, homeCollect, h1, h2]
    simp only [Bool.false_eq_true, if_false, Bool.not_false, Bool.and_self, if_true]
    exact congrArg (t :: ·) (ih (fun u hu => hname u (List.mem_cons_of_mem t hu)))

theorem hand_marker_chars (h : String) (hh : isHandednessToken h = true) :
    strContains h '(' = true ∧ strContains h ')' = true := by
  simp only [isHandednessToken, Bool.or_eq_true, beq_iff_eq] at hh
  rcases hh with (rfl | rfl) | rfl <;> exact ⟨by decide, by decide⟩

theorem position_no_close (p : String) (hp : isPositionToken p = true) :
    strContains p ')' = false := by
  simp only [isPositionToken, positionAbbrevs, List.any_cons, List.any_nil,
    Bool.or_eq_true, beq_iff_eq, Bool.false_eq_true, or_false] at hp
  rcases hp with rfl | rfl | rfl | rfl | rfl | rfl | rfl | rfl | rfl | rfl <;> decide

theorem digit_token_no_close (s : String) (hs : isDigitToken s = true) :
    strContains s ')' = false := by
  simp only [isDigitToken, Bool.and_eq_true, List.all_eq_true] at hs
  simp only [strContains, List.any_eq_false]
  intro c hc
  have := hs.2 c hc
  simp only [decide_eq_true_eq] at this ⊢
  intro hcontra
  rw [hcontra] at this
  exact absurd this (by decide)

theorem clean_token_parts (t : String) (h : isCleanNameToken t = true) :
    strContains t '(' = false ∧ strContains t ')' = false ∧
      isDigitToken t = false ∧ isPositionToken t = false := by
  simp only [isCleanNameToken, Bool.and_eq_true, Bool.not_eq_true'] at h
  exact ⟨h.1.1.1, h.1.1.2, h.1.2, h.2⟩

/-- C9: on the away-layout line the away extraction yields J.P. Crawford, and
on the home-layout line the home extraction yields Ian Happ. -/
theorem crawford_happ_extraction :
    extractAwayName "1   J.P. Crawford (L) SS" = "J.P. Crawford" ∧
    extractHomeName "LF (S) Ian Happ   1" = "Ian Happ" := by
  decide

/-- C10: the away-lineup extraction unconditionally discards the first
whitespace token of the line and keeps the following tokens up to the first
one containing an opening parenthesis; on a line that does not begin with an
order number the first word of the name is therefore dropped, as the concrete
line without a leading number shows. -/
theorem away_extraction_drops_first_token (first : String) (rest : List String) :
    awayNameTokens (first :: rest) = rest.takeWhile (fun p => !strContains p '(') ∧
    extractAwayName "Mike Trout (R) CF" = "Trout" := by
  exact ⟨collect_eq_takeWhile rest, by decide⟩

/-- C2 as stated is false: the two extractions are layout specific, and the
claim also quantifies over the mismatched side.  The observed away-layout
line, handed to the home-lineup extraction, yields the bare position
abbreviation SS instead of a clean name. -/
theorem cross_layout_position_leaks :
    awayLayout (splitWs "1   J.P. Crawford (L) SS") ∧
    extractHomeName "1   J.P. Crawford (L) SS" = "SS" ∧
    isPositionToken "SS" = true := by
  refine ⟨⟨"1", ["J.P.", "Crawford"], "(L)", "SS", by decide, by decide, by decide,
    by decide, by decide, by decide⟩, by decide, by decide⟩

/-- C2 amended: on every line whose layout matches the lineup side it appears
on (away extraction on the away layout, home extraction on the home layout),
the extracted tokens contain no digit-only token, no position abbreviation
and no parenthesized handedness marker. -/
theorem matched_layout_extraction_clean (toks : List String) :
    (awayLayout toks → cleanOutput (awayNameTokens toks)) ∧
    (homeLayout toks → cleanOutput (homeCollect toks false)) := by
  constructor
  · rintro ⟨num, name, hand, pos, rfl, hnum, hne, hclean, hhand, hpos⟩
    have hopen : strContains hand '(' = true := (hand_marker_chars hand hhand).1
    have hname : ∀ t ∈ name, strContains t '(' = false :=
      fun t ht => (clean_token_parts t (hclean t ht)).1
    have : awayNameTokens (num :: name ++ [hand, pos]) = name := by
      show collectUntilParen (name ++ hand :: [pos]) = name
      exact collect_append_name name hand [pos] hname hopen
    rw [this]
    intro t ht
    obtain ⟨h1, h2, h3, h4⟩ := clean_token_parts t (hclean t ht)
    exact ⟨h3, h4, h1, h2⟩
  · rintro ⟨num, pos, hand, name, hshape, hnum, hne, hclean, hhand, hpos⟩
    have hclose : strContains hand ')' = true := (hand_marker_chars hand hhand).2
    have hposnc : strContains pos ')' = false := position_no_close pos hpos
    have hnumnc : strContains num ')' = false := digit_token_no_close num hnum
    have hname : ∀ t ∈ name, strContains t ')' = false ∧ isDigitToken t = false :=
      fun t ht =>
        ⟨(clean_token_parts t (hclean t ht)).2.1, (clean_token_parts t (hclean t ht)).2.2.1⟩
    have e3 : homeCollect (name ++ [num]) true = name := by
      rw [homeCollect_clean_append name [num] hname]
      simp [homeCollect, hnumnc, hnum]
    have e4 : homeCollect name true = name := by
      have h2 := homeCollect_clean_append name [] hname
      rw [List.append_nil] at h2
      simpa [homeCollect] using h2
    have e1 : ∀ l : List String, homeCollect (pos :: hand :: l) false = homeCollect l true := by
      intro l
      simp [homeCollect, hposnc, hclose]
    have e2 : ∀ l : List String,
        homeCollect (num :: pos :: hand :: l) false = homeCollect l true := by
      intro l
      simp [homeCollect, hnumnc, hposnc, hclose]
    have hout : homeCollect toks false = name := by
      rcases hshape with rfl | rfl
      · show homeCollect (pos :: hand :: (name ++ [num])) false = name
        rw [e1, e3]
      · rw [e2, e4]
    rw [hout]
    intro t ht
    obtain ⟨h1, h2, h3, h4⟩ := clean_token_parts t (hclean t ht)
    exact ⟨h3, h4, h1, h2⟩

theorem matched_layout_extraction_clean_witness :
    cleanOutput (awayNameTokens ["1", "J.P.", "Crawford", "(L)", "SS"]) :=
  (matched_layout_extraction_clean ["1", "J.P.", "Crawford", "(L)", "SS"]).1
    ⟨"1", ["J.P.", "Crawford"], "(L)", "SS", rfl, by decide, by decide, by decide,
      by decide, by decide⟩

/-- C3: the correlation loop emits exactly the arsenal entries whose pitch
type is a key of the batter dictionary, in the relative order of the arsenal;
in particular no emitted entry has a pitch type absent from the outcomes. -/
theorem correlation_exact_ordered_join (ars : List ArsenalEntry)
    (stats : List (String × BatterStat)) :
    (buildPerformance ars stats).map (fun e => e.pitch_type) =
      (ars.map (fun p => p.pitch_type)).filter (fun pt => (stats.lookup pt).isSome) := by
  induction ars with
  | nil => rfl
  | cons p ps ih =>
    cases h : stats.lookup p.pitch_type with
    | none => simp [buildPerformance, h, ih]
    | some st => simp [buildPerformance, h, ih]

/-- C4 is false on the code: the membership test of the correlation loop is
exact string equality on dictionary keys, with no case or whitespace
normalization.  An arsenal label differing from the outcomes key only in the
case of one letter produces no matchup entry. -/
theorem case_variant_not_matched :
    "slider" ≠ "Slider" ∧
    lowerStr "slider" = lowerStr "Slider" ∧
    buildPerformance [⟨"slider", "30%"⟩]
      [("Slider", ⟨"10", ".250", ".400", ".320"⟩)] = [] := by
  refine ⟨by decide, by decide, by decide⟩

/-- C4 amended: the join compares pitch-type labels by exact string equality:
a one-entry arsenal produces no output exactly when its unchanged label is
not a key of the outcomes dictionary, so labels that differ in case or in
surrounding whitespace are not matched. -/
theorem join_is_exact_equality (p : ArsenalEntry) (stats : List (String × BatterStat)) :
    buildPerformance [p] stats = [] ↔ stats.lookup p.pitch_type = none := by
  cases h : stats.lookup p.pitch_type with
  | none => simp [buildPerformance, h]
  | some st => simp [buildPerformance, h]

theorem processBatters_nonempty (names : List String) (team vsP : String)
    (ars : List ArsenalEntry) (stats : String → List (String × BatterStat)) :
    ∀ m ∈ processBatters names team vsP ars stats, m.performance ≠ [] := by
  induction names with
  | nil => intro m hm; cases hm
  | cons n rest ih =>
    intro m hm
    by_cases hperf : (mkMatchup n team vsP ars (stats n)).performance.isEmpty = true
    · rw [processBatters, if_pos hperf] at hm
      exact ih m hm
    · rw [processBatters, if_neg hperf] at hm
      rcases List.mem_cons.mp hm with rfl | hm2
      · intro hnil
        exact hperf (by rw [hnil]; rfl)
      · exact ih m hm2

/-- C7: every record of the key_matchups list assembled by analyze_game has a
non-empty performance list; a batter whose outcomes share no pitch type with
the opposing arsenal gets an empty performance list and is never appended. -/
theorem key_matchups_nonempty (g : Game) (stats : String → List (String × BatterStat))
    (awayArs homeArs : List ArsenalEntry) (awayP homeP : String) :
    ∀ m ∈ keyMatchups g stats awayArs homeArs awayP homeP, m.performance ≠ [] := by
  intro m hm
  rcases List.mem_append.mp hm with h | h
  · exact processBatters_nonempty _ _ _ _ _ m h
  · exact processBatters_nonempty _ _ _ _ _ m h

theorem key_matchups_nonempty_witness :
    (⟨"J.P. Crawford", "SEA", "Imanaga",
      [⟨"Slider", "30.2%", ⟨"12", ".250", ".400", ".320"⟩⟩]⟩ : Matchup).performance ≠ [] :=
  key_matchups_nonempty gEx statsEx arsEx arsEx "Kirby" "Imanaga" _ (by decide)

/-- C5 is false on the code: the root handler searches the feed for the
hard-coded DET at TB pair.  On a non-empty feed whose first game is another
pair it answers with the game-not-found error object instead of analyzing the
first game. -/
theorem root_ignores_first_game :
    ([gNB] : List Game) ≠ [] ∧
    [gNB].head? = some gNB ∧
    rootEndpointGame [gNB] = Except.error "DET @ TB game not found" ∧
    rootEndpointGame [gNB] ≠ Except.ok gNB := by
  refine ⟨by decide, rfl, rfl, fun h => ?_⟩
  rw [show rootEndpointGame [gNB] = Except.error "DET @ TB game not found" from rfl] at h
  exact Except.noConfusion h

/-- C5 amended: the root endpoint analyzes the feed game with away team DET
and home team TB when one exists, never merely the first feed entry, and an
empty feed yields the no-games error object. -/
theorem root_selects_det_tb (feed : List Game) :
    (∀ g, rootEndpointGame feed = Except.ok g →
      g ∈ feed ∧ g.away_team = "DET" ∧ g.home_team = "TB") ∧
    (feed.isEmpty = true → rootEndpointGame feed = Except.error "No games found") := by
  constructor
  · intro g h
    unfold rootEndpointGame at h
    by_cases he : feed.isEmpty = true
    · rw [if_pos he] at h
      cases h
    · rw [if_neg he] at h
      cases hf : findDetTb feed with
      | none => rw [hf] at h; cases h
      | some g2 =>
        rw [hf] at h
        cases h
        unfold findDetTb at hf
        have hmem := List.mem_of_find?_eq_some hf
        have hp := List.find?_some hf
        simp only [Bool.and_eq_true, beq_iff_eq] at hp
        exact ⟨hmem, hp.1, hp.2⟩
  · intro he
    unfold rootEndpointGame
    rw [if_pos he]

theorem root_selects_det_tb_witness :
    gDT ∈ [gDT] ∧ gDT.away_team = "DET" ∧ gDT.home_team = "TB" :=
  (root_selects_det_tb [gDT]).1 gDT rfl

/-- C8: the specific-game endpoint compares team codes after uppercasing both
sides, so requests differing only in case select the same game; and when no
feed entry matches the requested pair the handler answers with the
game-not-found error object, the handler being a pure function of the feed. -/
theorem specific_game_ci_and_notfound (feed : List Game) (aw hm aw2 hm2 : String) :
    (upperStr aw = upperStr aw2 → upperStr hm = upperStr hm2 →
      specificGameEndpoint feed aw hm = specificGameEndpoint feed aw2 hm2) ∧
    ((∀ g ∈ feed, ¬(upperStr g.away_team = upperStr aw ∧ upperStr g.home_team = upperStr hm)) →
      specificGameEndpoint feed aw hm = Except.error "Game not found") := by
  constructor
  · intro h1 h2
    unfold specificGameEndpoint findGameCI gameCodeMatch
    rw [h1, h2]
  · intro h
    have hnone : findGameCI feed aw hm = none := by
      unfold findGameCI
      rw [List.find?_eq_none]
      intro g hg
      have := h g hg
      simp only [gameCodeMatch, Bool.and_eq_true, beq_iff_eq]
      exact fun hc => this ⟨hc.1, hc.2⟩
    unfold specificGameEndpoint
    rw [hnone]

theorem specific_game_ci_and_notfound_witness :
    specificGameEndpoint [gNB] "det" "tb" = Except.error "Game not found" :=
  (specific_game_ci_and_notfound [gNB] "det" "tb" "DET" "TB").2 (by decide)

theorem pitcher_calls_one (pg : PitcherPage) (n : String) :
    pitcherExternalCalls pg n = 1 := by
  unfold pitcherExternalCalls pitcherFetchBodyCounted
  repeat' split
  all_goals rfl

theorem batter_calls_one (pg : BatterPage) (n : String) :
    batterExternalCalls pg n = 1 := by
  unfold batterExternalCalls batterFetchBodyCounted
  repeat' split
  all_goals rfl

/-- C1 is false on the code: get_pitcher_arsenal and get_batter_vs_pitches
keep no cache of resolved names, so a second resolution of the same
normalized name is not served from a cache: it runs the whole fetch again.
Both resolutions return the same value, but the two resolutions together
perform two external site retrievals, not the one the claim requires. -/
theorem second_resolution_not_cached :
    get_pitcher_arsenal ppEx "Tarik Skubal" = get_pitcher_arsenal ppEx "Tarik Skubal" ∧
    pitcherExternalCalls ppEx "Tarik Skubal" + pitcherExternalCalls ppEx "Tarik Skubal" = 2 ∧
    pitcherExternalCalls ppEx "Tarik Skubal" + pitcherExternalCalls ppEx "Tarik Skubal" ≠ 1 := by
  exact ⟨rfl, rfl, by decide⟩

/-- C1 amended: resolution is deterministic, the fetch being a pure function
of the page environment and name, but there is no identity cache: every call
of either fetch performs exactly one external site retrieval of its own, so
resolving the same name twice performs two external retrievals. -/
theorem no_cache_every_resolution_external (pp : PitcherPage) (bp : BatterPage)
    (n m : String) :
    pitcherExternalCalls pp n = 1 ∧
    pitcherExternalCalls pp n + pitcherExternalCalls pp n = 2 ∧
    batterExternalCalls bp m = 1 ∧
    batterExternalCalls bp m + batterExternalCalls bp m = 2 ∧
    get_pitcher_arsenal pp n = get_pitcher_arsenal pp n := by
  have h1 := pitcher_calls_one pp n
  have h2 := batter_calls_one bp m
  exact ⟨h1, by rw [h1], h2, by rw [h2], rfl⟩

theorem pitcher_result_shape (pg : PitcherPage) (n : String) :
    get_pitcher_arsenal pg n = [] ∨
      (get_pitcher_arsenal pg n = arsenalEvalResult pg ∧ pg.gotoThrows = false ∧
        pg.searchBox = true ∧
        (firstResult pg.menuItemLink pg.savantPlayerLink pg.searchResultsLink
          pg.allLinks n).isSome = true ∧
        pg.clickThrows = false ∧ pg.evalThrows = false) := by
  unfold get_pitcher_arsenal pitcherFetchBodyCounted
  cases h1 : pg.gotoThrows
  · cases h2 : pg.searchBox
    · simp
    · cases h3 : firstResult pg.menuItemLink pg.savantPlayerLink pg.searchResultsLink
        pg.allLinks n
      · simp
      · cases h4 : pg.clickThrows
        · cases h5 : pg.evalThrows
          · right
            exact ⟨rfl, rfl, rfl, rfl, rfl, rfl⟩
          · simp
        · simp
  · simp

theorem batter_result_shape (pg : BatterPage) (n : String) :
    get_batter_vs_pitches pg n = [] ∨
      (get_batter_vs_pitches pg n = pitchDataEvalResult pg ∧ pg.gotoThrows = false ∧
        pg.searchBox = true ∧
        (firstResult pg.menuItemLink pg.savantPlayerLink pg.searchResultsLink
          pg.allLinks n).isSome = true ∧
        pg.clickThrows = false ∧ pg.evalThrows = false) := by
  unfold get_batter_vs_pitches batterFetchBodyCounted
  cases h1 : pg.gotoThrows
  · cases h2 : pg.searchBox
    · simp
    · cases h3 : firstResult pg.menuItemLink pg.savantPlayerLink pg.searchResultsLink
        pg.allLinks n
      · simp
      · cases h4 : pg.clickThrows
        · cases h5 : pg.evalThrows
          · right
            exact ⟨rfl, rfl, rfl, rfl, rfl, rfl⟩
          · simp
        · simp
  · simp

/-- C6: when every extraction strategy yields nothing, whether through a
missing search box, no search result under any selector, a missing marker
element or table, an empty evaluation, or an exception thrown at a browser
step, the pitcher fetch returns the empty sequence and the batter fetch
returns the empty dictionary; the except clauses turn every thrown exception
into the empty result, so no error reaches the caller. -/
theorem fetchers_empty_on_total_miss (pp : PitcherPage) (bp : BatterPage) (n m : String) :
    (pitcherAllMiss pp n → get_pitcher_arsenal pp n = []) ∧
    (batterAllMiss bp m → get_batter_vs_pitches bp m = []) := by
  constructor
  · intro h
    rcases pitcher_result_shape pp n with he | ⟨heq, h1, h2, h3, h4, h5⟩
    · exact he
    · rcases h with h | h | h | h | h | h
      · simp [h1] at h
      · simp [h2] at h
      · simp [h] at h3
      · simp [h4] at h
      · simp [h5] at h
      · rw [heq, h]
  · intro h
    rcases batter_result_shape bp m with he | ⟨heq, h1, h2, h3, h4, h5⟩
    · exact he
    · rcases h with h | h | h | h | h | h
      · simp [h1] at h
      · simp [h2] at h
      · simp [h] at h3
      · simp [h4] at h
      · simp [h5] at h
      · rw [heq, h]

theorem fetchers_empty_on_total_miss_witness :
    get_pitcher_arsenal ppEx "Riley Greene" = [] ∧
    get_batter_vs_pitches bpEx "Riley Greene" = [] :=
  ⟨(fetchers_empty_on_total_miss ppEx bpEx "Riley Greene" "Riley Greene").1
      (Or.inr (Or.inl rfl)),
    (fetchers_empty_on_total_miss ppEx bpEx "Riley Greene" "Riley Greene").2
      (Or.inr (Or.inl rfl))⟩

end MLB
